import Mathlib

/-!
# DevCollab chat subsystem — shallow embedding and verification

This file embeds the chat/realtime core of the DevCollab collaboration
platform (a Node/Express/Mongoose backend with a React client) into Lean 4
and proves or refutes the specification's claims about it.

Conventions of the embedding:
* Document-database state is passed explicitly (a `ChatDB` value, lists of
  documents); every Mongoose method or Express handler becomes a pure Lean
  function from the pre-state and the request data to the post-state and
  the HTTP/return value.
* Timestamps are natural numbers; each handler receives the current time
  `now` as a parameter, standing for `Date.now()` / `new Date()` during that
  synchronous handler run.
* Object ids are natural numbers; fresh ids are passed in explicitly.
* JavaScript values that may be `undefined`/`null` are `Option`s.
-/

namespace DevCollab

/-- JavaScript's `String.prototype.trim()`: strip leading and trailing
whitespace.  Written over the character list so that it evaluates by kernel
reduction (Lean's own `String.trim` recurses on byte positions and does
not). -/
def jsTrim (s : String) : String :=
  ⟨((s.data.dropWhile Char.isWhitespace).reverse.dropWhile
      Char.isWhitespace).reverse⟩

abbrev UserId := Nat
abbrev ChatId := Nat
abbrev ProjectId := Nat
abbrev Timestamp := Nat

/-- `readBy` entry of the embedded message schema (`models/Chat.js`):
`{ user: ObjectId, readAt: Date (default now) }`. -/
structure ReadReceipt where
  user : UserId
  readAt : Timestamp
deriving DecidableEq, Repr

/-- `moduleData` of a chat-message attachment (`models/Chat.js`,
`attachments[].moduleData`): note the schema puts no `min`/`max` bound on
`completionPercentage` here. -/
structure ModuleData where
  title : String
  description : String
  completionPercentage : Int
  githubLink : Option String
deriving DecidableEq, Repr

/-- One attachment of a chat message (`models/Chat.js`, `attachments[]`). -/
structure Attachment where
  type : String
  filename : Option String
  path : Option String
  mimetype : Option String
  size : Option Nat
  language : Option String
  preview : Option String
  moduleData : Option ModuleData
deriving DecidableEq, Repr

/-- A message embedded in a chat document (`models/Chat.js`, `messageSchema`). -/
structure ChatMessage where
  sender : UserId
  content : String
  githubLink : Option String
  attachments : List Attachment
  readBy : List ReadReceipt
  createdAt : Timestamp
deriving DecidableEq, Repr

/-- The denormalized `lastMessage` cache on a chat (`models/Chat.js`).
`hasAttachments` is optional in the schema; one writer (the module
submission route) sets a misspelled `hasAttachment` key instead, which the
schema discards, leaving the field unset. -/
structure LastMessage where
  content : String
  sender : UserId
  createdAt : Timestamp
  hasAttachments : Option Bool
  githubLink : Option String
deriving DecidableEq, Repr

/-- `type` discriminator of the chat schema: `enum: ['direct', 'project']`. -/
inductive ChatType where
  | direct
  | project
deriving DecidableEq, Repr

/-- A chat document (`models/Chat.js`, `chatSchema`). -/
structure Chat where
  id : ChatId
  type : ChatType
  participants : List UserId
  project : Option ProjectId
  messages : List ChatMessage
  lastMessage : Option LastMessage
deriving DecidableEq, Repr

/-- `attachments[].type` of the embedded message schema is a required enum
over `['file', 'image', 'code', 'module']`. -/
def Attachment.validType (a : Attachment) : Bool :=
  a.type == "file" || a.type == "image" || a.type == "code"
    || a.type == "module"

/-- Document validation of one embedded message on a chat `save()`:
`content` is `required: true` on a String path, which Mongoose's required
check fails for the empty string (as well as for null/undefined), and every
attachment needs a valid `type`.  The other required paths (`sender`,
`readBy[].user`) are total in the model. -/
def ChatMessage.validates (m : ChatMessage) : Bool :=
  m.content != "" && m.attachments.all Attachment.validType

/-- `chatSchema.methods.addMessage(senderId, content, attachments = [],
githubLink = null)`: builds the message with `readBy: [{ user: senderId }]`,
pushes it onto `this.messages`, overwrites `this.lastMessage`, and runs
`await this.save()`.  The save validates the whole document — every
embedded message — and on failure (e.g. an empty `content`) the method
throws a `ValidationError` and nothing is persisted; otherwise it returns
`this.messages[this.messages.length - 1]`. -/
def Chat.addMessage (c : Chat) (senderId : UserId) (content : String)
    (attachments : List Attachment := []) (githubLink : Option String := none)
    (now : Timestamp := 0) : Except String (Chat × Option ChatMessage) :=
  let message : ChatMessage :=
    { sender := senderId
      content := content
      attachments := attachments
      githubLink := githubLink
      readBy := [{ user := senderId, readAt := now }]
      createdAt := now }
  let c' : Chat :=
    { c with
      messages := c.messages ++ [message]
      lastMessage := some
        { content := content
          sender := senderId
          createdAt := now
          hasAttachments := some (decide (attachments.length > 0))
          githubLink := githubLink } }
  if c'.messages.all ChatMessage.validates then
    .ok (c', c'.messages.getLast?)
  else
    .error "ValidationError"

/-- `msg.readBy.some(read => read.user.toString() === userId.toString())`. -/
def ChatMessage.isReadBy (m : ChatMessage) (userId : UserId) : Bool :=
  m.readBy.any (fun r => r.user == userId)

/-- `chatSchema.methods.markAsRead(userId)`: filters the messages not yet
read by `userId`, pushes `{ user: userId }` onto each of their `readBy`
arrays (in place, so the message log keeps its order), saves if anything
changed, and returns the number of newly marked messages. -/
def Chat.markAsRead (c : Chat) (userId : UserId) (now : Timestamp := 0) :
    Chat × Nat :=
  let unreadCount := (c.messages.filter (fun m => !(m.isReadBy userId))).length
  let messages' := c.messages.map (fun m =>
    if m.isReadBy userId then m
    else { m with readBy := m.readBy ++ [{ user := userId, readAt := now }] })
  ({ c with messages := messages' }, unreadCount)

/-! ## Chat store: get-or-create direct chat (`models/Chat.js` static) -/

/-- The chat collection, with the id the next `create` call will assign. -/
structure ChatDB where
  chats : List Chat
  nextId : ChatId
deriving DecidableEq, Repr

/-- The Mongo query filter of `getOrCreateDirectChat`:
`{ type: 'direct', participants: { $all: [user1Id, user2Id], $size: 2 } }`. -/
def Chat.matchesDirectPair (c : Chat) (user1Id user2Id : UserId) : Bool :=
  c.type == ChatType.direct
    && c.participants.length == 2
    && c.participants.contains user1Id
    && c.participants.contains user2Id

/-- The first await of `chatSchema.statics.getOrCreateDirectChat`:
`this.findOne({ type: 'direct', participants: {...} })`.  A read; the
database is unchanged. -/
def ChatDB.findDirectChat (db : ChatDB) (user1Id user2Id : UserId) :
    Option Chat :=
  db.chats.find? (fun c => c.matchesDirectPair user1Id user2Id)

/-- `this.create({ type: 'direct', participants: [user1Id, user2Id] })`. -/
def ChatDB.createDirectChat (db : ChatDB) (user1Id user2Id : UserId) :
    ChatDB × Chat :=
  let c : Chat :=
    { id := db.nextId
      type := ChatType.direct
      participants := [user1Id, user2Id]
      project := none
      messages := []
      lastMessage := none }
  ({ chats := db.chats ++ [c], nextId := db.nextId + 1 }, c)

/-- The second half of `getOrCreateDirectChat`, resumed after the `findOne`
await with its result `found`: `if (!chat) chat = await this.create(...)`.
Splitting the method at its await lets interleavings of concurrent calls be
expressed: each concurrent call performs its `findDirectChat` read and its
`resumeGetOrCreate` write as two separate atomic steps against the shared
database. -/
def ChatDB.resumeGetOrCreate (db : ChatDB) (user1Id user2Id : UserId)
    (found : Option Chat) : ChatDB × Chat :=
  match found with
  | some chat => (db, chat)
  | none => db.createDirectChat user1Id user2Id

/-- `chatSchema.statics.getOrCreateDirectChat(user1Id, user2Id)` run in
isolation (no interleaved writer between its two steps). -/
def ChatDB.getOrCreateDirectChat (db : ChatDB) (user1Id user2Id : UserId) :
    ChatDB × Chat :=
  db.resumeGetOrCreate user1Id user2Id (db.findDirectChat user1Id user2Id)

/-! ## Project model and the derived progress aggregate (`models/Project.js`) -/

/-- One entry of `projectSchema.moduleSubmissions`.  `completionPercentage`
is a schema-required `Number` with `min: 0, max: 100`; it is still read
defensively as `submission.completionPercentage || 0` by the aggregate, so
it is kept as an `Option`. -/
structure ModuleSubmission where
  title : String
  description : String
  githubLink : Option String
  completionPercentage : Option ℚ
  submittedBy : UserId
  submittedAt : Timestamp
deriving DecidableEq, Repr

/-- The project document, restricted to the fields the verified operations
touch.  `completionPercentage` is the *stored* field (`default: 0`), distinct
from the derived `progressData` virtual. -/
structure Project where
  id : ProjectId
  name : String
  owner : UserId
  collaborators : List UserId
  deadline : Timestamp
  moduleSubmissions : List ModuleSubmission
  completionPercentage : ℚ
  lastUpdated : Timestamp
deriving DecidableEq, Repr

/-- `submission.completionPercentage || 0` (the schema default-guard used by
both the virtual and the route's average). -/
def ModuleSubmission.pct (s : ModuleSubmission) : ℚ :=
  s.completionPercentage.getD 0

/-- The head of `this.moduleSubmissions.sort((a, b) => b.submittedAt -
a.submittedAt)`: JavaScript's sort is stable, so the head of the descending
sort is the earliest submission among those with the maximal `submittedAt`. -/
def latestSubmission : List ModuleSubmission → Option ModuleSubmission
  | [] => none
  | s :: rest =>
    match latestSubmission rest with
    | none => some s
    | some t => if t.submittedAt > s.submittedAt then some t else some s

/-- JavaScript's `Math.round x = ⌊x + 1/2⌋`, written over the numerator and
denominator so that it evaluates by kernel reduction; `jsRound_eq_round`
below proves it equal to Mathlib's `round` (which is the same
half-up rounding). -/
def jsRound (x : ℚ) : ℤ := (2 * x.num + x.den) / (2 * (x.den : ℤ))

/-- The value of the `progressData` virtual. -/
structure ProgressData where
  completionPercentage : ℤ
  lastUpdated : Timestamp
deriving DecidableEq, Repr

/-- `projectSchema.virtual('progressData')`: with no submissions, `{0, new
Date()}`; otherwise the total of `completionPercentage || 0` over all
submissions, `Math.round`ed after dividing by the count (`Math.round x =
⌊x + 1/2⌋`, which is Mathlib's `round` on ℚ), paired with the `submittedAt`
of the head of the descending-by-`submittedAt` sort. -/
def Project.progressData (p : Project) (now : Timestamp := 0) : ProgressData :=
  match latestSubmission p.moduleSubmissions with
  | none => { completionPercentage := 0, lastUpdated := now }
  | some lastSub =>
    let totalPercentage := (p.moduleSubmissions.map ModuleSubmission.pct).sum
    { completionPercentage :=
        jsRound (totalPercentage / (p.moduleSubmissions.length : ℚ))
      lastUpdated := lastSub.submittedAt }

/-! ## Participant management (`controllers/chatController.js`) -/

/-- `addChatParticipant`: looks the chat up by id (404 when absent), rejects
with 400 only when `userId` is already a participant, otherwise pushes
`userId` and saves.  The handler never inspects `chat.type`. -/
def addChatParticipant (chat? : Option Chat) (userId : UserId) :
    Nat × Option Chat :=
  match chat? with
  | none => (404, none)
  | some chat =>
    if chat.participants.any (fun p => p == userId) then
      (400, some chat)
    else
      (200, some { chat with participants := chat.participants ++ [userId] })

/-- `removeChatParticipant`: looks the chat up by id (404 when absent), then
unconditionally filters `userId` out of `participants` and saves.  The
handler never inspects `chat.type`. -/
def removeChatParticipant (chat? : Option Chat) (userId : UserId) :
    Nat × Option Chat :=
  match chat? with
  | none => (404, none)
  | some chat =>
    (200, some { chat with
      participants := chat.participants.filter (fun p => !(p == userId)) })

/-! ## Module submission (`routes/moduleRoutes.js`, `POST /:id/modules`) -/

/-- Outcome of the module submission handler.  `created` carries the message
the handler reads back as `chat.messages[chat.messages.length - 1]` and the
aggregate it reports as `project.progressData.completionPercentage`. -/
inductive ModuleSubmitResult where
  | badRequest (msg : String)
  | notFound (msg : String)
  | created (chatMessage : Option ChatMessage) (aggregate : ℤ)
deriving DecidableEq, Repr

/-- The database slice the module submission handler touches. -/
structure ModuleSubmitState where
  projects : List Project
  chats : List Chat
deriving DecidableEq, Repr

/-- `POST /:id/modules`: validates title and completion percentage, finds
the project by id restricted to owner-or-collaborator, pushes the module
submission and saves the project, then finds the project chat, appends a
chat message whose single attachment carries `moduleData` with the
submitted module's own percentage, overwrites `lastMessage`, and saves the
chat.  The input `completionPercentage` is the `parseInt` of the request
field: `none` stands for a missing/empty/non-numeric value (both of the
handler's 400 branches for it).  The source also computes `averageProgress =
Math.round(totalProgress / count)` between the push and the save; the
variable is never used, which the model keeps as the unused binding
`_averageProgress`.  Uploaded file metadata on the submission is not
modeled; no verified claim mentions it. -/
def moduleSubmitRoute (st : ModuleSubmitState) (projectId : ProjectId)
    (uid : UserId) (title : Option String) (description : Option String)
    (completionPercentage : Option Int) (githubLink : Option String)
    (now : Timestamp) : ModuleSubmitState × ModuleSubmitResult :=
  let titleRaw := title.getD ""
  if jsTrim titleRaw == "" then
    (st, .badRequest "Module title is required")
  else
    match completionPercentage with
    | none => (st, .badRequest "Completion percentage is required")
    | some percentage =>
      if percentage < 0 || percentage > 100 then
        (st, .badRequest "Completion percentage must be a number between 0 and 100")
      else
        match st.projects.find? (fun p =>
            p.id == projectId && (p.owner == uid || p.collaborators.contains uid)) with
        | none => (st, .notFound "Project not found or unauthorized")
        | some project =>
          let moduleSubmission : ModuleSubmission :=
            { title := jsTrim titleRaw
              description := jsTrim (description.getD "")
              completionPercentage := some (percentage : ℚ)
              githubLink := githubLink
              submittedBy := uid
              submittedAt := now }
          let project' :=
            { project with
              moduleSubmissions := project.moduleSubmissions ++ [moduleSubmission] }
          let totalProgress := (project'.moduleSubmissions.map ModuleSubmission.pct).sum
          let _averageProgress :=
            jsRound (totalProgress / (project'.moduleSubmissions.length : ℚ))
          let projects' := st.projects.map (fun p =>
            if p.id == projectId then project' else p)
          match st.chats.find? (fun c =>
              c.type == ChatType.project && c.project == some projectId) with
          | none =>
            ({ projects := projects', chats := st.chats },
             .notFound "Chat not found for project")
          | some chat =>
            let messageContent :=
              "Module Submitted: " ++ titleRaw ++ " (" ++ toString percentage
                ++ "% complete)"
                ++ (if githubLink.isSome then " - View Repository" else "")
            let message : ChatMessage :=
              { sender := uid
                content := messageContent
                githubLink := githubLink
                attachments :=
                  [{ type := "module"
                     filename := none
                     path := none
                     mimetype := none
                     size := none
                     language := none
                     preview := none
                     moduleData := some
                       { title := titleRaw
                         description := description.getD ""
                         completionPercentage := percentage
                         githubLink := githubLink } }]
                readBy := [{ user := uid, readAt := now }]
                createdAt := now }
            let chat' :=
              { chat with
                messages := chat.messages ++ [message]
                lastMessage := some
                  { content := messageContent
                    sender := uid
                    createdAt := now
                    hasAttachments := none
                    githubLink := githubLink } }
            let chats' := st.chats.map (fun c => if c.id == chat.id then chat' else c)
            ({ projects := projects', chats := chats' },
             .created chat'.messages.getLast?
               (project'.progressData now).completionPercentage)

/-! ## Posting a message

Two implementations exist in the source.  `chatRoutes.js` imports the
`sendMessage` controller from `chatController.js` but mounts its own inline
handler at `POST /:chatId/messages`; the controller is dead code.  Both are
embedded: `sendMessageRoute` is the mounted inline handler, working on the
separate `Message` collection (`models/Message.js`), and
`sendMessageController` is the controller, working on the embedded-message
chat schema through `Chat.addMessage`. -/

/-- A multer upload as the inline handler reads it. -/
structure MulterFile where
  path : String
  filename : String
  mimetype : String
deriving DecidableEq, Repr

/-- An attachment of a standalone `Message` document (`models/Message.js`). -/
structure FileAttachment where
  url : String
  filename : String
  mimetype : String
deriving DecidableEq, Repr

/-- `projectProgress` subdocument of `models/Message.js`:
`completionPercentage` has `min: 0, max: 100` there, enforced by document
validation when the message is saved; `lastUpdated` defaults to now. -/
structure ProgressSnapshot where
  projectId : ProjectId
  completionPercentage : ℚ
  deadline : Option Timestamp
  lastUpdated : Timestamp
deriving DecidableEq, Repr

/-- A standalone `Message` document (`models/Message.js`).  Its `content`
has no `required` constraint (only `trim`), so an empty content passes
document validation. -/
structure MessageDoc where
  id : Nat
  chat : ChatId
  sender : UserId
  content : String
  attachments : List FileAttachment
  projectProgress : Option ProgressSnapshot
deriving DecidableEq, Repr

/-- Document validation of `models/Message.js` on `save()`: the only
constrained field among those the route sets is
`projectProgress.completionPercentage ∈ [0, 100]`. -/
def MessageDoc.valid (m : MessageDoc) : Bool :=
  match m.projectProgress with
  | none => true
  | some s => decide (0 ≤ s.completionPercentage) && decide (s.completionPercentage ≤ 100)

/-- The `projectProgress` JSON the client may attach to the request
(already parsed; a JSON parse failure leaves it `none` in the handler). -/
structure ProgressPayload where
  projectId : ProjectId
  completionPercentage : ℚ
  deadline : Option Timestamp
deriving DecidableEq, Repr

/-- The database slice the inline message route touches: the chat
collection (the real embedded-message schema), the standalone `Message`
collection, and the projects. -/
structure SendState where
  chats : List Chat
  messageDocs : List MessageDoc
  projects : List Project
deriving DecidableEq, Repr

/-- Outcome of the inline message route.  Its success response (201) is
unreachable: every request that reaches the end of the handler fails the
chat save (see `sendMessageRoute`), so the route answers 404, 403 or
500. -/
inductive SendResult where
  | notFound
  | forbidden
  | serverError
deriving DecidableEq, Repr

/-- The mounted `POST /:chatId/messages` handler (`chatRoutes.js`): finds
the chat (404), checks participancy (403), builds the `Message` document
with `content: content || ''` and the uploaded files as attachments —
*no emptiness validation* — and, when a `projectProgress` payload is present
on a project chat, sets the snapshot on the message and runs
`Project.findByIdAndUpdate(projectId, { completionPercentage, lastUpdated })`.
`findByIdAndUpdate` runs without validators (Mongoose's default is
`runValidators: false`), so the stored project field takes the payload value
unclamped, and this write happens *before* `message.save()`; if that save
fails validation the handler's catch returns 500 with the project update
already applied.  When `message.save()` succeeds the `Message` document is
persisted, and the handler then runs `chat.messages.push(message._id)`
followed by `chat.save()` — but `chat.messages` is the *embedded*
message array, whose entries require `sender` and `content`, so the
ObjectId cast in by the push fails document validation: `chat.save()`
throws, the catch answers 500, and the chat document (message log and
`lastMessage`) is left unchanged while the `Message` document (and any
project update) stays persisted. -/
def sendMessageRoute (st : SendState) (chatId : ChatId) (uid : UserId)
    (content : Option String) (files : List MulterFile)
    (projectProgress : Option ProgressPayload) (now : Timestamp)
    (newMsgId : Nat) : SendState × SendResult :=
  match st.chats.find? (fun c => c.id == chatId) with
  | none => (st, .notFound)
  | some chat =>
    if !(chat.participants.contains uid) then
      (st, .forbidden)
    else
      let attachments := files.map (fun f =>
        { url := f.path, filename := f.filename, mimetype := f.mimetype
          : FileAttachment })
      let base : MessageDoc :=
        { id := newMsgId
          chat := chatId
          sender := uid
          content := content.getD ""
          attachments := attachments
          projectProgress := none }
      let withProgress :=
        match projectProgress with
        | some payload =>
          if chat.type == ChatType.project then
            let snapshot : ProgressSnapshot :=
              { projectId := payload.projectId
                completionPercentage := payload.completionPercentage
                deadline := payload.deadline
                lastUpdated := now }
            some (payload, { base with projectProgress := some snapshot })
          else none
        | none => none
      let (message, st₁) : MessageDoc × SendState :=
        match withProgress with
        | some (payload, msg) =>
          (msg,
           { st with projects := st.projects.map (fun p =>
               if p.id == payload.projectId then
                 { p with
                   completionPercentage := payload.completionPercentage
                   lastUpdated := now }
               else p) })
        | none => (base, st)
      if message.valid then
        -- message.save() succeeds: the Message document is persisted.
        -- chat.messages.push(message._id) then casts the id into the
        -- embedded array as a subdocument without sender/content, so
        -- chat.save() fails validation: 500, chats unchanged.
        ({ st₁ with messageDocs := st₁.messageDocs ++ [message] },
         .serverError)
      else
        (st₁, .serverError)

/-- `sendMessage` of `chatController.js` (imported by the router but never
mounted): rejects a missing or whitespace-only `content` with 400 *before*
touching the database, then 404 / 403 checks, then `chat.addMessage` with
the trimmed content (non-empty here, so its save validates) — a thrown
error would be caught as 500.  Returns the HTTP status and the created
message. -/
def sendMessageController (db : ChatDB) (chatId : ChatId) (uid : UserId)
    (content : Option String) (now : Timestamp) :
    ChatDB × (Nat × Option ChatMessage) :=
  if jsTrim (content.getD "") == "" then
    (db, (400, none))
  else
    match db.chats.find? (fun c => c.id == chatId) with
    | none => (db, (404, none))
    | some chat =>
      if !(chat.participants.contains uid) then
        (db, (403, none))
      else
        match chat.addMessage uid (jsTrim (content.getD "")) [] none now with
        | .ok (chat', created) =>
          ({ db with chats := db.chats.map (fun c =>
               if c.id == chatId then chat' else c) },
           (201, created))
        | .error _ => (db, (500, none))

/-! ## Client reconciliation (`components/ChatWindow.jsx`,
`handleMessageUpdate`) -/

/-- An entry of the client's visible message list (the `messages` React
state).  `sender` is the sender object's identity; entries always carry one
because both insertion paths default it to the `'unknown'` placeholder. -/
structure ClientMessage where
  id : Nat
  content : String
  sender : String
  createdAt : Timestamp
  attachments : List Attachment
  readBy : List ReadReceipt
  githubLink : Option String
deriving DecidableEq, Repr

/-- An incoming message payload (REST fetch item or realtime event).
Every field may be absent — the merge rule exists to tolerate partial
payloads.  `id` is `message._id`; a payload without it is dropped by the
handler's guard. -/
structure IncomingMessage where
  id : Option Nat
  content : Option String
  sender : Option String
  createdAt : Option Timestamp
  attachments : Option (List Attachment)
  readBy : Option (List ReadReceipt)
  githubLink : Option String
deriving DecidableEq, Repr

/-- The `{_id: 'unknown', name: 'Unknown User'}` placeholder sender. -/
def unknownSender : String := "unknown"

/-- The update-in-place merge of `handleMessageUpdate`:
`{...existing, ...message, sender: message.sender || existing.sender || ...,
createdAt: message.createdAt || existing.createdAt, githubLink:
message.githubLink || existing.githubLink}` — fields present on the incoming
payload overwrite, absent fields are preserved from the existing entry (the
`|| <placeholder>` fallback for `sender` cannot fire because the existing
entry always has a sender). -/
def mergeMessage (existing : ClientMessage) (m : IncomingMessage) :
    ClientMessage :=
  { id := existing.id
    content := m.content.getD existing.content
    sender := m.sender.getD existing.sender
    createdAt := m.createdAt.getD existing.createdAt
    attachments := m.attachments.getD existing.attachments
    readBy := m.readBy.getD existing.readBy
    githubLink := (m.githubLink.map some).getD existing.githubLink }

/-- `updated[existingIndex] = merge(...)`: replaces the first entry whose
id matches (`findIndex` finds the first occurrence). -/
def updateFirst (mid : Nat) (m : IncomingMessage) :
    List ClientMessage → List ClientMessage
  | [] => []
  | e :: rest =>
    if e.id == mid then mergeMessage e m :: rest
    else e :: updateFirst mid m rest

/-- The entry the append branch builds for a new id: absent fields take the
handler's defaults (`''`, the placeholder sender, `new Date()`, `[]`). -/
def freshEntry (mid : Nat) (m : IncomingMessage) (now : Timestamp) :
    ClientMessage :=
  { id := mid
    content := m.content.getD ""
    sender := m.sender.getD unknownSender
    createdAt := m.createdAt.getD now
    attachments := m.attachments.getD []
    readBy := m.readBy.getD []
    githubLink := m.githubLink }

/-- `handleMessageUpdate(message)`: drops a payload with no `_id`; if an
entry with the same id exists (`prev.findIndex(m => m._id === message._id)
>= 0`) updates that entry in place, otherwise appends a fresh entry. -/
def handleMessageUpdate (prev : List ClientMessage) (m : IncomingMessage)
    (now : Timestamp) : List ClientMessage :=
  match m.id with
  | none => prev
  | some mid =>
    if prev.any (fun e => e.id == mid) then updateFirst mid m prev
    else prev ++ [freshEntry mid m now]

/-! ## Realtime gateway (`server.js`: `authenticateSocket`, `io.use`,
`io.on('connection')`) -/

/-- The socket handshake: `socket.handshake.auth.token`. -/
structure Handshake where
  token : Option String
deriving DecidableEq, Repr

/-- `authenticateSocket(socket, next)`: no token ⇒ refuse; otherwise
`jwt.verify(token, JWT_SECRET)` — abstracted as the external verifier
`verify : String → Option UserId` — decides admit or refuse.  Both failure
branches call `next(new Error(...))`, which makes socket.io refuse the
connection with a `connect_error` carrying the message. -/
def authenticateSocket (verify : String → Option UserId) (h : Handshake) :
    Except String UserId :=
  match h.token with
  | none => .error "Authentication error: No token provided"
  | some t =>
    match verify t with
    | some u => .ok u
    | none => .error "Authentication error: Invalid token"

/-- Gateway state: the set of admitted (authenticated) connection ids and
the room membership pairs (connection id, room id).  Room membership is
connection-scoped and in-memory only. -/
structure GatewayState where
  authenticated : List Nat
  rooms : List (Nat × Nat)
deriving DecidableEq, Repr

/-- The gateway's process-start state. -/
def GatewayState.initial : GatewayState := { authenticated := [], rooms := [] }

/-- Events hitting the gateway: a connection attempt with its handshake,
`join room` / `leave room` from a socket, and a disconnect. -/
inductive GatewayEvent where
  | connect (cid : Nat) (h : Handshake)
  | joinRoom (cid : Nat) (room : Nat)
  | leaveRoom (cid : Nat) (room : Nat)
  | disconnect (cid : Nat)
deriving DecidableEq, Repr

/-- One gateway step.  `connect` passes through `io.use(authenticateSocket)`:
an admitted connection is recorded, a refused one changes nothing and the
authentication error is returned.  The `join room`/`leave room` handlers are
registered only inside `io.on('connection', ...)`, which socket.io fires
only for connections the middleware admitted, so those events have no
effect for a connection id that was never admitted.  `disconnect` discards
the connection and all of its room memberships (socket.io auto-leaves all
rooms on disconnect). -/
def gatewayStep (verify : String → Option UserId) (st : GatewayState)
    (e : GatewayEvent) : GatewayState × Option String :=
  match e with
  | .connect cid h =>
    match authenticateSocket verify h with
    | .ok _ => ({ st with authenticated := cid :: st.authenticated }, none)
    | .error msg => (st, some msg)
  | .joinRoom cid room =>
    if st.authenticated.contains cid then
      ({ st with rooms := (cid, room) :: st.rooms }, none)
    else (st, none)
  | .leaveRoom cid room =>
    if st.authenticated.contains cid then
      ({ st with rooms := st.rooms.filter (fun p => p != (cid, room)) }, none)
    else (st, none)
  | .disconnect cid =>
    ({ authenticated := st.authenticated.filter (fun c => c != cid)
       rooms := st.rooms.filter (fun p => p.1 != cid) }, none)

/-- A whole event trace, from left to right. -/
def gatewayRun (verify : String → Option UserId) (st : GatewayState) :
    List GatewayEvent → GatewayState
  | [] => st
  | e :: es => gatewayRun verify (gatewayStep verify st e).1 es

/-! ## Concrete sample values (used by witnesses and counterexamples) -/

/-- A direct chat between users 1 and 2 with an empty log. -/
def sampleDirectChat : Chat :=
  { id := 0
    type := ChatType.direct
    participants := [1, 2]
    project := none
    messages := []
    lastMessage := none }

/-- The empty chat store. -/
def emptyChatDB : ChatDB := { chats := [], nextId := 0 }

/-- First step pair of an interleaved double call of
`getOrCreateDirectChat(1, 2)`: both calls execute their `findOne` against
the empty store (neither read changes it), then the first call resumes. -/
def raceStep1 : ChatDB × Chat :=
  emptyChatDB.resumeGetOrCreate 1 2 (emptyChatDB.findDirectChat 1 2)

/-- The second call resumes with the `findOne` result it read *before* the
first call's insert. -/
def raceStep2 : ChatDB × Chat :=
  raceStep1.1.resumeGetOrCreate 1 2 (emptyChatDB.findDirectChat 1 2)

/-- A module submission with the given percentage and submission time. -/
def sampleSubmission (pct : ℚ) (t : Timestamp) : ModuleSubmission :=
  { title := "m"
    description := ""
    githubLink := none
    completionPercentage := some pct
    submittedBy := 1
    submittedAt := t }

/-- A project holding submissions of 20%, 60% and 100%. -/
def sampleProjectA : Project :=
  { id := 5
    name := "P"
    owner := 1
    collaborators := []
    deadline := 99
    moduleSubmissions :=
      [sampleSubmission 20 1, sampleSubmission 60 2, sampleSubmission 100 3]
    completionPercentage := 0
    lastUpdated := 0 }

/-- The same project with its submissions permuted. -/
def sampleProjectB : Project :=
  { sampleProjectA with
    moduleSubmissions :=
      [sampleSubmission 100 3, sampleSubmission 20 1, sampleSubmission 60 2] }

/-- A REST-history item: message "m1" (id 1) with content "hi". -/
def sampleFetchMsg : IncomingMessage :=
  { id := some 1
    content := some "hi"
    sender := some "alice"
    createdAt := some 10
    attachments := some []
    readBy := some []
    githubLink := none }

/-- A later realtime event for the same message id, with a partial
payload. -/
def sampleEventMsg : IncomingMessage :=
  { id := some 1
    content := none
    sender := none
    createdAt := some 11
    attachments := none
    readBy := none
    githubLink := none }

/-- The client list after ingesting the history item into an empty view. -/
def sampleClientList : List ClientMessage :=
  handleMessageUpdate [] sampleFetchMsg 0

/-- The aggregate a `created` module submission response reports. -/
def ModuleSubmitResult.aggregate? : ModuleSubmitResult → Option ℤ
  | .created _ a => some a
  | _ => none

/-- A project (id 5, owner 1, stored completion 20) holding one prior 20%
submission. -/
def sampleModuleProject : Project :=
  { id := 5
    name := "P"
    owner := 1
    collaborators := []
    deadline := 99
    moduleSubmissions := [sampleSubmission 20 1]
    completionPercentage := 20
    lastUpdated := 0 }

/-- The project chat of project 5. -/
def sampleProjectChat : Chat :=
  { id := 9, type := ChatType.project, participants := [1],
    project := some 5, messages := [], lastMessage := none }

/-- The module-submission database slice around project 5. -/
def sampleModuleState : ModuleSubmitState :=
  { projects := [sampleModuleProject], chats := [sampleProjectChat] }

/-- The outcome of submitting module "m2" at 100% to project 5 at time 2. -/
def moduleSubmitOutcome : ModuleSubmitState × ModuleSubmitResult :=
  moduleSubmitRoute sampleModuleState 5 1 (some "m2") none (some 100) none 2

/-- Project 5 as the submission handler saves it: the new 100% submission
appended, the stored completion field untouched. -/
def sampleUpdatedProject : Project :=
  { sampleModuleProject with
    moduleSubmissions := sampleModuleProject.moduleSubmissions ++
      [{ title := jsTrim "m2", description := jsTrim "",
         completionPercentage := some ((100 : Int) : ℚ), githubLink := none,
         submittedBy := 1, submittedAt := 2 }] }

/-- A message-route state holding one direct chat between users 1 and 2
and nothing else. -/
def sampleSendState : SendState :=
  { chats := [sampleDirectChat]
    messageDocs := []
    projects := [] }

/-- A message-route state holding one project chat (chat 2 for project 5,
participant 1) and the project document, whose stored completion is 50. -/
def sampleProjectSendState : SendState :=
  { chats := [{ id := 2, type := ChatType.project, participants := [1],
                project := some 5, messages := [], lastMessage := none }]
    messageDocs := []
    projects := [{ id := 5, name := "P", owner := 1, collaborators := [],
                   deadline := 99, moduleSubmissions := [],
                   completionPercentage := 50, lastUpdated := 0 }] }

/-- A schema-valid `file` attachment (used to show that even with an
attachment present, an empty content fails the chat save). -/
def sampleFileAttachment : Attachment :=
  { type := "file"
    filename := some "a.txt"
    path := some "uploads/chat/files/a.txt"
    mimetype := some "text/plain"
    size := some 3
    language := none
    preview := none
    moduleData := none }

/-! ## Theorems -/

/-- `jsRound` is Mathlib's half-up rounding. -/
theorem jsRound_eq_round (x : ℚ) : jsRound x = round x := by
  have hden : ((x.den : ℚ)) ≠ 0 := by
    exact_mod_cast x.den_pos.ne'
  have hx : x + 1 / 2
      = ((2 * x.num + (x.den : ℤ) : ℤ) : ℚ) / (((2 * x.den : ℕ) : ℕ) : ℚ) := by
    conv_lhs => rw [← Rat.num_div_den x]
    push_cast
    field_simp
    ring
  rw [round_eq, jsRound, hx, Rat.floor_intCast_div_natCast]
  push_cast
  rfl

/-- Mapping a function that fixes every element of a list is the
identity. -/
theorem list_map_self (l : List α) (f : α → α) (h : ∀ a ∈ l, f a = a) :
    l.map f = l := by
  induction l with
  | nil => rfl
  | cons x xs ih =>
    simp only [List.map_cons, h x (by simp)]
    rw [ih (fun a ha => h a (by simp [ha]))]

/-- C2 counterexample: the claim quantifies over every content and
attachment list, but the embedded message schema has `content: { type:
String, required: true }`, and Mongoose's required check fails on the empty
string — so `addMessage` with empty content throws a `ValidationError`
from `save()` and persists nothing, even when a (schema-valid) attachment
is present, although the spec's data model says content "may be empty if
attachments present". -/
theorem addMessage_empty_counterexample :
    sampleDirectChat.addMessage 1 "" [sampleFileAttachment] none 5
      = Except.error "ValidationError" := rfl

/-- C2 amended: for a *non-empty* content, attachments whose `type`s are
schema-valid, and a chat whose existing log passes validation,
`Chat.addMessage` appends the message at the end of the message log, marks
it read by the sender (`readBy` contains `s`), updates `lastMessage` so
that its content, sender and `createdAt` equal those of the appended
message, and returns the created message; with empty content the save
fails validation and nothing is persisted (see the counterexample). -/
theorem addMessage_spec (c : Chat) (s : UserId) (content : String)
    (attachments : List Attachment) (githubLink : Option String)
    (now : Timestamp) (_hs : s ∈ c.participants)
    (hwf : ∀ m ∈ c.messages, m.validates = true)
    (hcontent : content ≠ "")
    (hatts : ∀ a ∈ attachments, a.validType = true) :
    ∃ (c' : Chat) (m : ChatMessage),
      c.addMessage s content attachments githubLink now
        = Except.ok (c', some m) ∧
      c'.messages = c.messages ++ [m] ∧
      m.sender = s ∧ m.content = content ∧ m.attachments = attachments ∧
      m.createdAt = now ∧
      (∃ t, ({ user := s, readAt := t } : ReadReceipt) ∈ m.readBy) ∧
      ∃ lm : LastMessage,
        c'.lastMessage = some lm ∧
        lm.content = m.content ∧ lm.sender = m.sender ∧
        lm.createdAt = m.createdAt := by
  have hmsg : ChatMessage.validates
      { sender := s, content := content, attachments := attachments,
        githubLink := githubLink,
        readBy := [{ user := s, readAt := now }], createdAt := now } = true := by
    simp [ChatMessage.validates, List.all_eq_true, hcontent]
    exact hatts
  have hall : ((c.messages ++
      [{ sender := s, content := content, attachments := attachments,
         githubLink := githubLink,
         readBy := [{ user := s, readAt := now }], createdAt := now
         : ChatMessage }]).all ChatMessage.validates) = true := by
    rw [List.all_append]
    simp only [List.all_cons, List.all_nil, Bool.and_true, Bool.and_eq_true]
    exact ⟨List.all_eq_true.mpr hwf, hmsg⟩
  refine ⟨{ c with
      messages := c.messages ++
        [{ sender := s, content := content, attachments := attachments,
           githubLink := githubLink,
           readBy := [{ user := s, readAt := now }], createdAt := now }],
      lastMessage := some
        { content := content, sender := s, createdAt := now,
          hasAttachments := some (decide (attachments.length > 0)),
          githubLink := githubLink } },
    { sender := s, content := content, attachments := attachments,
      githubLink := githubLink,
      readBy := [{ user := s, readAt := now }], createdAt := now },
    ?_, rfl, rfl, rfl, rfl, rfl, ⟨now, by simp⟩,
    ⟨{ content := content, sender := s, createdAt := now,
       hasAttachments := some (decide (attachments.length > 0)),
       githubLink := githubLink }, rfl, rfl, rfl, rfl⟩⟩
  simp only [Chat.addMessage, hall, if_true]
  rw [List.getLast?_concat]

/-- C2 witness: `addMessage_spec` applied to a concrete two-participant
chat with sender 1 and content "hello". -/
theorem addMessage_spec_witness :
    (1 : UserId) ∈ sampleDirectChat.participants ∧
    (∀ m ∈ sampleDirectChat.messages, m.validates = true) ∧
    ("hello" : String) ≠ "" ∧
    (∃ (c' : Chat) (m : ChatMessage),
      sampleDirectChat.addMessage 1 "hello" [] none 5
        = Except.ok (c', some m) ∧
      c'.messages = sampleDirectChat.messages ++ [m] ∧
      m.sender = 1 ∧ m.content = "hello" ∧ m.attachments = [] ∧
      m.createdAt = 5 ∧
      (∃ t, ({ user := 1, readAt := t } : ReadReceipt) ∈ m.readBy) ∧
      ∃ lm : LastMessage,
        c'.lastMessage = some lm ∧
        lm.content = m.content ∧ lm.sender = m.sender ∧
        lm.createdAt = m.createdAt) :=
  ⟨by decide, by decide, by decide,
   addMessage_spec sampleDirectChat 1 "hello" [] none 5 (by decide)
     (by decide) (by decide) (by decide)⟩

/-- Every message of the log produced by `markAsRead` is read by the
marking user. -/
theorem markAsRead_all_read (c : Chat) (u : UserId) (now : Timestamp) :
    ∀ m ∈ (c.markAsRead u now).1.messages, m.isReadBy u = true := by
  intro m hm
  simp only [Chat.markAsRead, List.mem_map] at hm
  obtain ⟨m₀, _, rfl⟩ := hm
  by_cases h : m₀.isReadBy u
  · rw [if_pos h]; exact h
  · rw [if_neg h]
    simp [ChatMessage.isReadBy, List.any_append]

/-- C5: `markAsRead` returns the number of messages not yet read by the
user; pointwise, a message already read by the user is left unchanged while
an unread one gets exactly the one new read-receipt for the user appended
(so receipts are added to exactly the unread messages); and the operation
is idempotent — run again, with no message added in between, it changes
nothing and returns 0. -/
theorem markAsRead_spec (c : Chat) (u : UserId) (now now' : Timestamp) :
    (c.markAsRead u now).2
      = (c.messages.filter (fun m => !(m.isReadBy u))).length ∧
    List.Forall₂ (fun m m' =>
        if m.isReadBy u then m' = m
        else m'.readBy = m.readBy ++ [{ user := u, readAt := now }])
      c.messages (c.markAsRead u now).1.messages ∧
    (c.markAsRead u now).1.markAsRead u now' = ((c.markAsRead u now).1, 0) := by
  refine ⟨rfl, ?_, ?_⟩
  · simp only [Chat.markAsRead]
    induction c.messages with
    | nil => simp
    | cons m rest ih =>
      by_cases h : m.isReadBy u
      · exact List.Forall₂.cons (by simp [h]) ih
      · exact List.Forall₂.cons (by simp [h]) ih
  · have hall := markAsRead_all_read c u now
    have hfilter :
        ((c.markAsRead u now).1.messages.filter
          (fun m => !(m.isReadBy u))).length = 0 := by
      rw [List.length_eq_zero, List.filter_eq_nil_iff]
      intro m hm
      simp [hall m hm]
    have hmap :
        (c.markAsRead u now).1.messages.map (fun m =>
          if m.isReadBy u then m
          else { m with readBy := m.readBy ++ [{ user := u, readAt := now' }] })
        = (c.markAsRead u now).1.messages :=
      list_map_self _ _ (fun m hm => by rw [if_pos (hall m hm)])
    simp only [Chat.markAsRead] at hmap hfilter ⊢
    rw [Prod.mk.injEq]
    refine ⟨?_, by simpa using hfilter⟩
    rw [hmap]

/-- C1 counterexample: `getOrCreateDirectChat` is `findOne` followed by a
separate `create` — a read-then-write, not an atomic find-or-insert.  In
the interleaving where two concurrent calls for the pair (1,2) both run
their `findOne` against the empty store before either runs its `create`,
both reads return null, both calls create, the store ends up with **two**
persisted direct chats for the pair, and the two calls return different
chat ids — contradicting "exactly one persisted direct chat" and "all N
calls return that same chat id". -/
theorem getOrCreateDirect_race_counterexample :
    (raceStep2.1.chats.countP (fun c => c.matchesDirectPair 1 2)) = 2 ∧
    raceStep1.2.id ≠ raceStep2.2.id := by decide

/-- C1 amended: `getOrCreateDirectChat` is a find-then-create sequence, so
atomicity holds only for non-overlapping calls: starting from a store with
no direct chat for the pair, one completed call persists exactly one direct
chat for the pair, and a second call run after it returns that same chat
and leaves the store unchanged.  (Under concurrent interleaving duplicates
are possible — see the counterexample.) -/
theorem getOrCreateDirect_sequential_spec (db : ChatDB) (u1 u2 : UserId)
    (h : db.chats.countP (fun c => c.matchesDirectPair u1 u2) = 0) :
    (db.getOrCreateDirectChat u1 u2).1.chats.countP
        (fun c => c.matchesDirectPair u1 u2) = 1 ∧
    (db.getOrCreateDirectChat u1 u2).1.getOrCreateDirectChat u1 u2
      = ((db.getOrCreateDirectChat u1 u2).1,
         (db.getOrCreateDirectChat u1 u2).2) := by
  have hnone : db.findDirectChat u1 u2 = none := by
    rw [ChatDB.findDirectChat, List.find?_eq_none]
    intro c hc
    simpa using List.countP_eq_zero.mp h c hc
  have hmatch :
      (Chat.matchesDirectPair
        { id := db.nextId, type := ChatType.direct, participants := [u1, u2],
          project := none, messages := [], lastMessage := none } u1 u2) = true := by
    simp [Chat.matchesDirectPair, List.contains_cons]
  constructor
  · simp [ChatDB.getOrCreateDirectChat, ChatDB.resumeGetOrCreate, hnone,
      ChatDB.createDirectChat, List.countP_append, h, List.countP_cons, hmatch]
  · simp [ChatDB.getOrCreateDirectChat, ChatDB.resumeGetOrCreate, hnone,
      ChatDB.createDirectChat, ChatDB.findDirectChat, List.find?_append]
    have hfind : db.chats.find? (fun c => c.matchesDirectPair u1 u2) = none := hnone
    simp [hfind, List.find?_cons, hmatch]

/-- C1 witness: `getOrCreateDirect_sequential_spec` on the empty store. -/
theorem getOrCreateDirect_sequential_spec_witness :
    emptyChatDB.chats.countP (fun c => c.matchesDirectPair 1 2) = 0 ∧
    ((emptyChatDB.getOrCreateDirectChat 1 2).1.chats.countP
        (fun c => c.matchesDirectPair 1 2) = 1 ∧
    (emptyChatDB.getOrCreateDirectChat 1 2).1.getOrCreateDirectChat 1 2
      = ((emptyChatDB.getOrCreateDirectChat 1 2).1,
         (emptyChatDB.getOrCreateDirectChat 1 2).2)) :=
  ⟨by decide, getOrCreateDirect_sequential_spec emptyChatDB 1 2 (by decide)⟩

/-- C4 counterexample: on the direct chat between users 1 and 2, adding
participant 3 succeeds with 200 and grows the participant set to
`[1, 2, 3]`, and removing participant 2 succeeds with 200 and shrinks it to
`[1]` — there is no `InvalidOperation` failure and the participant set of a
direct chat *is* mutated. -/
theorem participants_direct_counterexample :
    addChatParticipant (some sampleDirectChat) 3
      = (200, some { sampleDirectChat with participants := [1, 2, 3] }) ∧
    removeChatParticipant (some sampleDirectChat) 2
      = (200, some { sampleDirectChat with participants := [1] }) := by decide

/-- C4 amended: `addChatParticipant` and `removeChatParticipant` never
consult the chat type and never fail with `InvalidOperation`; on any chat
(direct or project alike) add appends the user unless already present (400
then, chat unchanged) and remove filters the user out.  The first conjunct
states type-blindness literally: rewriting the chat's type commutes with
either handler. -/
theorem participants_spec (chat : Chat) (userId : UserId) :
    (∀ t : ChatType,
      addChatParticipant (some { chat with type := t }) userId
        = ((addChatParticipant (some chat) userId).1,
           (addChatParticipant (some chat) userId).2.map
             (fun c => { c with type := t }))) ∧
    (∀ t : ChatType,
      removeChatParticipant (some { chat with type := t }) userId
        = ((removeChatParticipant (some chat) userId).1,
           (removeChatParticipant (some chat) userId).2.map
             (fun c => { c with type := t }))) ∧
    (userId ∉ chat.participants →
      addChatParticipant (some chat) userId
        = (200, some { chat with
            participants := chat.participants ++ [userId] })) ∧
    (userId ∈ chat.participants →
      addChatParticipant (some chat) userId = (400, some chat)) ∧
    removeChatParticipant (some chat) userId
      = (200, some { chat with participants :=
          chat.participants.filter (fun p => !(p == userId)) }) := by
  refine ⟨?_, ?_, ?_, ?_, rfl⟩
  · intro t
    by_cases h : chat.participants.any (fun p => p == userId) <;>
      simp [addChatParticipant, h]
  · intro t
    simp [removeChatParticipant]
  · intro h
    have : (chat.participants.any fun p => p == userId) = false := by
      simp [List.any_beq']
      intro x hx e
      exact h (e ▸ hx)
    simp [addChatParticipant, this]
  · intro h
    simp [addChatParticipant, List.any_beq', h]

/-- C4 witness: `participants_spec` on the sample direct chat and user 3
(not a participant), checking the add branch concretely. -/
theorem participants_spec_witness :
    (3 : UserId) ∉ sampleDirectChat.participants ∧
    addChatParticipant (some sampleDirectChat) 3
      = (200, some { sampleDirectChat with
          participants := sampleDirectChat.participants ++ [3] }) :=
  ⟨by decide, (participants_spec sampleDirectChat 3).2.2.1 (by decide)⟩

/-- `latestSubmission` yields nothing exactly on the empty list. -/
theorem latestSubmission_eq_none_iff (l : List ModuleSubmission) :
    latestSubmission l = none ↔ l = [] := by
  cases l with
  | nil => simp [latestSubmission]
  | cons s rest =>
    simp only [latestSubmission]
    cases latestSubmission rest with
    | none => simp
    | some t =>
      by_cases h : t.submittedAt > s.submittedAt <;> simp [h]

/-- The submission `latestSubmission` picks is one of the list's. -/
theorem latestSubmission_mem {l : List ModuleSubmission}
    {s : ModuleSubmission} (h : latestSubmission l = some s) : s ∈ l := by
  induction l with
  | nil => simp [latestSubmission] at h
  | cons a rest ih =>
    simp only [latestSubmission] at h
    cases hrest : latestSubmission rest with
    | none =>
      rw [hrest] at h
      simp at h
      simp [h]
    | some t =>
      rw [hrest] at h
      by_cases hgt : t.submittedAt > a.submittedAt
      · simp [hgt] at h
        subst h
        exact List.mem_cons_of_mem a (ih hrest)
      · simp [hgt] at h
        subst h
        exact List.mem_cons_self _ _

/-- The submission `latestSubmission` picks has the maximal submission
time. -/
theorem latestSubmission_max (l : List ModuleSubmission) :
    ∀ s : ModuleSubmission, latestSubmission l = some s →
      ∀ t ∈ l, t.submittedAt ≤ s.submittedAt := by
  induction l with
  | nil => intro s h; simp [latestSubmission] at h
  | cons a rest ih =>
    intro s h
    simp only [latestSubmission] at h
    cases hrest : latestSubmission rest with
    | none =>
      rw [hrest] at h
      simp at h
      have hnil : rest = [] := (latestSubmission_eq_none_iff rest).mp hrest
      subst hnil
      subst h
      simp
    | some t =>
      rw [hrest] at h
      by_cases hgt : t.submittedAt > a.submittedAt
      · simp [hgt] at h
        subst h
        intro x hx
        rcases List.mem_cons.mp hx with rfl | hxr
        · exact Nat.le_of_lt hgt
        · exact ih t hrest x hxr
      · simp [hgt] at h
        subst h
        intro x hx
        rcases List.mem_cons.mp hx with rfl | hxr
        · exact Nat.le_refl _
        · exact Nat.le_trans (ih t hrest x hxr) (Nat.le_of_not_lt hgt)

/-- C3: for a project with at least one module submission, the derived
`progressData` aggregate equals the mean of `completionPercentage` over all
submissions rounded to the nearest integer; it is invariant under the order
in which the submissions sit in the array (any permutation of the
submissions, in a project read at any time, gives the same aggregate); and
its `lastUpdated` is the `submittedAt` of a submission maximal by
submission time. -/
theorem progressData_spec (p q : Project) (now now' : Timestamp)
    (hperm : p.moduleSubmissions.Perm q.moduleSubmissions)
    (hne : p.moduleSubmissions ≠ []) :
    (p.progressData now).completionPercentage
      = round ((p.moduleSubmissions.map ModuleSubmission.pct).sum
          / (p.moduleSubmissions.length : ℚ)) ∧
    (p.progressData now).completionPercentage
      = (q.progressData now').completionPercentage ∧
    (∃ s ∈ p.moduleSubmissions,
      (p.progressData now).lastUpdated = s.submittedAt ∧
      ∀ t ∈ p.moduleSubmissions, t.submittedAt ≤ s.submittedAt) := by
  cases hp : latestSubmission p.moduleSubmissions with
  | none => exact absurd ((latestSubmission_eq_none_iff _).mp hp) hne
  | some s =>
    have hqne : q.moduleSubmissions ≠ [] := by
      intro h
      exact hne (List.Perm.eq_nil (h ▸ hperm))
    cases hq : latestSubmission q.moduleSubmissions with
    | none => exact absurd ((latestSubmission_eq_none_iff _).mp hq) hqne
    | some s' =>
      refine ⟨by simp [Project.progressData, hp, jsRound_eq_round], ?_, ?_⟩
      · have hsum : (p.moduleSubmissions.map ModuleSubmission.pct).sum
            = (q.moduleSubmissions.map ModuleSubmission.pct).sum :=
          (hperm.map ModuleSubmission.pct).sum_eq
        have hlen : p.moduleSubmissions.length = q.moduleSubmissions.length :=
          hperm.length_eq
        simp [Project.progressData, hp, hq, hsum, hlen]
      · exact ⟨s, latestSubmission_mem hp,
          by simp [Project.progressData, hp], latestSubmission_max _ s hp⟩

/-- C3 witness: `progressData_spec` on the sample project with submissions
[20, 60, 100] against its permutation [100, 20, 60] (the spec's example,
whose common aggregate is 60). -/
theorem progressData_spec_witness :
    sampleProjectA.moduleSubmissions.Perm sampleProjectB.moduleSubmissions ∧
    sampleProjectA.moduleSubmissions ≠ [] ∧
    ((sampleProjectA.progressData 7).completionPercentage
      = round ((sampleProjectA.moduleSubmissions.map ModuleSubmission.pct).sum
          / (sampleProjectA.moduleSubmissions.length : ℚ)) ∧
    (sampleProjectA.progressData 7).completionPercentage
      = (sampleProjectB.progressData 8).completionPercentage ∧
    (∃ s ∈ sampleProjectA.moduleSubmissions,
      (sampleProjectA.progressData 7).lastUpdated = s.submittedAt ∧
      ∀ t ∈ sampleProjectA.moduleSubmissions,
        t.submittedAt ≤ s.submittedAt)) :=
  ⟨by decide, by decide,
   progressData_spec sampleProjectA sampleProjectB 7 8 (by decide) (by decide)⟩

/-- `updateFirst` never changes the sequence of ids. -/
theorem updateFirst_map_id (mid : Nat) (m : IncomingMessage)
    (l : List ClientMessage) :
    (updateFirst mid m l).map ClientMessage.id = l.map ClientMessage.id := by
  induction l with
  | nil => rfl
  | cons e rest ih =>
    by_cases h : e.id == mid
    · simp [updateFirst, h, mergeMessage]
    · simp [updateFirst, h, ih]

/-- On a list with no duplicate ids, `updateFirst` replaces the (unique)
entry carrying the id with its merge. -/
theorem updateFirst_mem_merge (mid : Nat) (m : IncomingMessage)
    (l : List ClientMessage) (hnodup : (l.map ClientMessage.id).Nodup) :
    ∀ e ∈ l, e.id = mid → mergeMessage e m ∈ updateFirst mid m l := by
  induction l with
  | nil => simp
  | cons a rest ih =>
    intro e he heid
    rw [List.map_cons, List.nodup_cons] at hnodup
    by_cases h : a.id == mid
    · rcases List.mem_cons.mp he with rfl | her
      · simp [updateFirst, h]
      · exfalso
        apply hnodup.1
        rw [List.mem_map]
        exact ⟨e, her, by rw [heid]; exact (beq_iff_eq.mp h).symm⟩
    · rcases List.mem_cons.mp he with rfl | her
      · exact absurd (beq_iff_eq.mpr heid) (by simpa using h)
      · simp only [updateFirst, h]
        simp only [Bool.false_eq_true, if_false]
        exact List.mem_cons_of_mem a (ih hnodup.2 e her heid)

/-- C6: the client merge keeps at most one visible entry per message id.
A payload without an id is dropped.  A payload with a fresh id is appended
(with the handler's defaults for its absent fields).  A payload whose id is
already present updates the unique matching entry in place: the id sequence
of the list is unchanged and the matching entry's fields become "incoming
if present, otherwise preserved from the existing entry". -/
theorem handleMessageUpdate_spec (prev : List ClientMessage)
    (m : IncomingMessage) (now : Timestamp)
    (hnodup : (prev.map ClientMessage.id).Nodup) :
    ((handleMessageUpdate prev m now).map ClientMessage.id).Nodup ∧
    (m.id = none → handleMessageUpdate prev m now = prev) ∧
    (∀ mid, m.id = some mid →
      mid ∉ prev.map ClientMessage.id →
      handleMessageUpdate prev m now = prev ++ [freshEntry mid m now]) ∧
    (∀ mid, m.id = some mid →
      mid ∈ prev.map ClientMessage.id →
      ((handleMessageUpdate prev m now).map ClientMessage.id
          = prev.map ClientMessage.id ∧
       ∀ e ∈ prev, e.id = mid →
         ∃ e' ∈ handleMessageUpdate prev m now,
           e'.id = e.id ∧
           e'.content = m.content.getD e.content ∧
           e'.sender = m.sender.getD e.sender ∧
           e'.createdAt = m.createdAt.getD e.createdAt ∧
           e'.attachments = m.attachments.getD e.attachments ∧
           e'.readBy = m.readBy.getD e.readBy ∧
           e'.githubLink = (m.githubLink.map some).getD e.githubLink)) := by
  have hany_iff : ∀ mid : Nat,
      (prev.any (fun e => e.id == mid) = true)
        ↔ mid ∈ prev.map ClientMessage.id := by
    intro mid
    simp [List.any_eq_true, List.mem_map]
  refine ⟨?_, ?_, ?_, ?_⟩
  · cases hid : m.id with
    | none => simpa [handleMessageUpdate, hid] using hnodup
    | some mid =>
      by_cases hany : prev.any (fun e => e.id == mid)
      · rw [handleMessageUpdate]
        simp only [hid, hany, if_true]
        rw [updateFirst_map_id]
        exact hnodup
      · rw [handleMessageUpdate]
        simp only [hid, hany, Bool.false_eq_true, if_false]
        rw [List.map_append, List.nodup_append]
        refine ⟨hnodup, by simp, ?_⟩
        intro x hx hx2
        have hxid : x = mid := by
          simpa [freshEntry] using hx2
        rw [hxid] at hx
        exact hany ((hany_iff mid).mpr hx)
  · intro hid
    simp [handleMessageUpdate, hid]
  · intro mid hid hmem
    have hany : prev.any (fun e => e.id == mid) = false := by
      rw [← Bool.not_eq_true]
      exact fun hc => hmem ((hany_iff mid).mp hc)
    simp [handleMessageUpdate, hid, hany]
  · intro mid hid hmem
    have hany : prev.any (fun e => e.id == mid) = true := (hany_iff mid).mpr hmem
    constructor
    · rw [handleMessageUpdate]
      simp only [hid, hany, if_true]
      exact updateFirst_map_id mid m prev
    · intro e he heid
      refine ⟨mergeMessage e m, ?_, rfl, rfl, rfl, rfl, rfl, rfl, rfl⟩
      rw [handleMessageUpdate]
      simp only [hid, hany, if_true]
      exact updateFirst_mem_merge mid m prev hnodup e he heid

/-- C6 witness: ingest history item "m1"/"hi" into an empty view, then the
partial realtime event for the same id — `handleMessageUpdate_spec` applied
to that state shows the id sequence stays `[1]`: exactly one visible entry
for "m1". -/
theorem handleMessageUpdate_spec_witness :
    (sampleClientList.map ClientMessage.id).Nodup ∧
    (((handleMessageUpdate sampleClientList sampleEventMsg 1).map
        ClientMessage.id).Nodup ∧
    (sampleEventMsg.id = none →
      handleMessageUpdate sampleClientList sampleEventMsg 1
        = sampleClientList) ∧
    (∀ mid, sampleEventMsg.id = some mid →
      mid ∉ sampleClientList.map ClientMessage.id →
      handleMessageUpdate sampleClientList sampleEventMsg 1
        = sampleClientList ++ [freshEntry mid sampleEventMsg 1]) ∧
    (∀ mid, sampleEventMsg.id = some mid →
      mid ∈ sampleClientList.map ClientMessage.id →
      ((handleMessageUpdate sampleClientList sampleEventMsg 1).map
          ClientMessage.id
        = sampleClientList.map ClientMessage.id ∧
       ∀ e ∈ sampleClientList, e.id = mid →
         ∃ e' ∈ handleMessageUpdate sampleClientList sampleEventMsg 1,
           e'.id = e.id ∧
           e'.content = sampleEventMsg.content.getD e.content ∧
           e'.sender = sampleEventMsg.sender.getD e.sender ∧
           e'.createdAt = sampleEventMsg.createdAt.getD e.createdAt ∧
           e'.attachments = sampleEventMsg.attachments.getD e.attachments ∧
           e'.readBy = sampleEventMsg.readBy.getD e.readBy ∧
           e'.githubLink
             = (sampleEventMsg.githubLink.map some).getD e.githubLink))) :=
  ⟨by decide, handleMessageUpdate_spec sampleClientList sampleEventMsg 1 (by decide)⟩

/-- C7 counterexample: the handler actually mounted at
`POST /:chatId/messages` performs no emptiness validation and does not fail
with a 400 `ValidationError` before mutating.  On empty content with no
attachments it persists the standalone `Message` document with
`content = ""` (a mutation), then fails saving the chat (the id pushed into
the embedded message array fails the subdocument's required checks) and
answers 500 — an error, but the wrong one, raised only *after* the
`Message` collection was mutated; the chat's own log is unchanged. -/
theorem emptyMessage_counterexample :
    (sendMessageRoute sampleSendState 0 1 (some "") [] none 50 100).2
      = SendResult.serverError ∧
    (sendMessageRoute sampleSendState 0 1 (some "") [] none 50 100).1.messageDocs
      = [{ id := 100, chat := 0, sender := 1, content := "",
           attachments := [], projectProgress := none }] ∧
    (sendMessageRoute sampleSendState 0 1 (some "") [] none 50 100).1.chats
      = sampleSendState.chats := by decide

/-- C7 amended: the empty-content validation exists only in the
`sendMessage` controller, which the router imports but never mounts.  That
controller does reject a missing or whitespace-only content with 400 before
touching any state; the mounted route accepts and persists the empty
message (see the counterexample). -/
theorem sendMessageController_validates (db : ChatDB) (chatId : ChatId)
    (uid : UserId) (content : Option String) (now : Timestamp)
    (h : jsTrim (content.getD "") = "") :
    sendMessageController db chatId uid content now = (db, (400, none)) := by
  simp [sendMessageController, h]

/-- C7 witness: `sendMessageController_validates` on whitespace-only
content. -/
theorem sendMessageController_validates_witness :
    jsTrim ((some "   ").getD "") = "" ∧
    sendMessageController emptyChatDB 1 1 (some "   ") 9
      = (emptyChatDB, (400, none)) :=
  ⟨by decide, sendMessageController_validates emptyChatDB 1 1 (some "   ") 9 (by decide)⟩

/-- C8 counterexample: the mounted message route forwards the client's
`projectProgress.completionPercentage` to
`Project.findByIdAndUpdate` (which runs without validators) *before*
`message.save()` can fail validation.  With payload percentage 150 on the
project chat, the handler answers 500 — yet the project document's stored
`completionPercentage` has been persisted as 150, outside [0, 100]. -/
theorem completionPercentage_counterexample :
    (sendMessageRoute sampleProjectSendState 2 1 (some "update") []
        (some { projectId := 5, completionPercentage := 150, deadline := none })
        50 100).1.projects.map Project.completionPercentage = [150] ∧
    (sendMessageRoute sampleProjectSendState 2 1 (some "update") []
        (some { projectId := 5, completionPercentage := 150, deadline := none })
        50 100).2 = SendResult.serverError ∧
    ¬((150 : ℚ) ≤ 100) := by decide

/-- C8 amended: the [0, 100] clamp holds on the schema-validated paths —
every `Message` document the mounted route persists passes document
validation, so a stored `projectProgress` snapshot is always in range; and
the module submission route rejects an out-of-range percentage with 400
before any mutation.  The clamp does *not* hold for the project's stored
field written through `findByIdAndUpdate` (see the counterexample). -/
theorem completionPercentage_schema_spec (st : SendState) (chatId : ChatId)
    (uid : UserId) (content : Option String) (files : List MulterFile)
    (pp : Option ProgressPayload) (now : Timestamp) (newMsgId : Nat)
    (hpre : ∀ m ∈ st.messageDocs, m.valid = true) :
    (∀ m ∈ (sendMessageRoute st chatId uid content files pp now
        newMsgId).1.messageDocs, m.valid = true) ∧
    (∀ (st₂ : ModuleSubmitState) (projectId : ProjectId) (uid₂ : UserId)
        (title description : Option String) (pct : Int)
        (githubLink : Option String) (now₂ : Timestamp),
      pct < 0 ∨ 100 < pct →
      (moduleSubmitRoute st₂ projectId uid₂ title description (some pct)
          githubLink now₂).1 = st₂ ∧
      ∃ msg, (moduleSubmitRoute st₂ projectId uid₂ title description
          (some pct) githubLink now₂).2 = ModuleSubmitResult.badRequest msg) := by
  constructor
  · intro m hm
    rcases hfind : st.chats.find? (fun c => c.id == chatId) with _ | chat
    · rw [sendMessageRoute, hfind] at hm
      exact hpre m hm
    · rw [sendMessageRoute, hfind] at hm
      by_cases hpart : chat.participants.contains uid
      · simp only [hpart, Bool.not_true, Bool.false_eq_true, if_false] at hm
        rcases pp with _ | payload
        · simp only [] at hm
          by_cases hv : MessageDoc.valid
              { id := newMsgId, chat := chatId, sender := uid,
                content := content.getD "",
                attachments := files.map (fun f =>
                  { url := f.path, filename := f.filename,
                    mimetype := f.mimetype }),
                projectProgress := none }
          · simp only [hv, if_true] at hm
            rcases List.mem_append.mp hm with hin | hnew
            · exact hpre m hin
            · rw [List.mem_singleton] at hnew
              rw [hnew]
              exact hv
          · simp only [hv, Bool.false_eq_true, if_false] at hm
            exact hpre m hm
        · by_cases hty : chat.type == ChatType.project
          · simp only [hty, if_true] at hm
            by_cases hv : MessageDoc.valid
                { id := newMsgId, chat := chatId, sender := uid,
                  content := content.getD "",
                  attachments := files.map (fun f =>
                    { url := f.path, filename := f.filename,
                      mimetype := f.mimetype }),
                  projectProgress := some
                    { projectId := payload.projectId,
                      completionPercentage := payload.completionPercentage,
                      deadline := payload.deadline, lastUpdated := now } }
            · simp only [hv, if_true] at hm
              rcases List.mem_append.mp hm with hin | hnew
              · exact hpre m hin
              · rw [List.mem_singleton] at hnew
                rw [hnew]
                exact hv
            · simp only [hv, Bool.false_eq_true, if_false] at hm
              exact hpre m hm
          · simp only [hty, Bool.false_eq_true, if_false] at hm
            by_cases hv : MessageDoc.valid
                { id := newMsgId, chat := chatId, sender := uid,
                  content := content.getD "",
                  attachments := files.map (fun f =>
                    { url := f.path, filename := f.filename,
                      mimetype := f.mimetype }),
                  projectProgress := none }
            · simp only [hv, if_true] at hm
              rcases List.mem_append.mp hm with hin | hnew
              · exact hpre m hin
              · rw [List.mem_singleton] at hnew
                rw [hnew]
                exact hv
            · simp only [hv, Bool.false_eq_true, if_false] at hm
              exact hpre m hm
      · simp only [hpart, Bool.not_false, if_true] at hm
        exact hpre m hm
  · intro st₂ projectId uid₂ title description pct githubLink now₂ hrange
    rw [moduleSubmitRoute]
    by_cases ht : jsTrim (title.getD "") == ""
    · simp [ht]
    · have hcond : (pct < 0 || pct > 100) = true := by
        rcases hrange with h | h <;> simp [h]
      simp [ht, hcond]

/-- C8 witness: `completionPercentage_schema_spec` on the project-chat
state (whose message store is empty, hence trivially valid), checking the
module route's rejection at percentage 150. -/
theorem completionPercentage_schema_spec_witness :
    (∀ m ∈ sampleProjectSendState.messageDocs, m.valid = true) ∧
    ((100 : Int) < 150) ∧
    ((moduleSubmitRoute { projects := [], chats := [] } 5 1 (some "t") none
        (some 150) none 3).1 = { projects := [], chats := [] } ∧
      ∃ msg, (moduleSubmitRoute { projects := [], chats := [] } 5 1 (some "t")
          none (some 150) none 3).2 = ModuleSubmitResult.badRequest msg) :=
  ⟨by decide, by decide,
   (completionPercentage_schema_spec sampleProjectSendState 2 1 none [] none
       50 100 (by decide)).2
     { projects := [], chats := [] } 5 1 (some "t") none 150 none 3
     (Or.inr (by decide))⟩

/-- C9 counterexample: submitting a 100% module to project 5 (which holds
one prior 20% submission, stored completion 20).  The handler computes the
aggregate 60 = round(mean(20, 100)) and reports it — but persists the
project with its stored `completionPercentage` still 20 (the computed
`averageProgress` is never written), and the chat message it appends
carries a `moduleData` attachment with the submitted module's own 100, not
a `projectProgress` snapshot with the aggregate and the project's
deadline. -/
theorem moduleSubmit_counterexample :
    moduleSubmitOutcome.1.projects.map Project.completionPercentage = [20] ∧
    moduleSubmitOutcome.2.aggregate? = some 60 ∧
    ¬(moduleSubmitOutcome.1.projects.map Project.completionPercentage
        = [(60 : ℚ)]) ∧
    moduleSubmitOutcome.1.chats.map (fun c => c.messages.map (fun m =>
        m.attachments.map (fun a =>
          a.moduleData.map ModuleData.completionPercentage)))
      = [[[some 100]]] ∧
    (100 : Int) ≠ 60 := by
  refine ⟨by decide, ?_, by decide, by decide, by decide⟩
  have h1 : moduleSubmitOutcome.2.aggregate?
      = some ((sampleUpdatedProject.progressData 2).completionPercentage) := rfl
  have h2 : (sampleUpdatedProject.progressData 2).completionPercentage = 60 := by
    norm_num [sampleUpdatedProject, sampleModuleProject, sampleSubmission,
      Project.progressData, latestSubmission, ModuleSubmission.pct,
      jsRound_eq_round, jsTrim]
  rw [h1, h2]

/-- C9 amended: on a valid module submission (non-empty title, percentage
in range, accessible project, existing project chat) the handler appends
the submission to the project's `moduleSubmissions` and persists that (so
the *derived* `progressData` aggregate of the saved project is
round(mean)), reports that aggregate in the response, and appends to the
project chat a message carrying a `moduleData` attachment with the
submitted module's own percentage; the computed average is *not* written to
the project's stored `completionPercentage`, and the chat message carries
no `projectProgress` snapshot or deadline (the embedded chat-message schema
has no such field). -/
theorem moduleSubmit_spec (st : ModuleSubmitState) (projectId : ProjectId)
    (uid : UserId) (title : String) (description : Option String) (pct : Int)
    (githubLink : Option String) (now : Timestamp)
    (project : Project) (chat : Chat)
    (htitle : ¬jsTrim title = "")
    (hlow : 0 ≤ pct) (hhigh : pct ≤ 100)
    (hproj : st.projects.find? (fun p =>
        p.id == projectId && (p.owner == uid || p.collaborators.contains uid))
      = some project)
    (hchat : st.chats.find? (fun c =>
        c.type == ChatType.project && c.project == some projectId)
      = some chat) :
    ∃ (project' : Project) (chat' : Chat) (msg : ChatMessage),
      (moduleSubmitRoute st projectId uid (some title) description (some pct)
          githubLink now).1.projects
        = st.projects.map (fun p => if p.id == projectId then project' else p) ∧
      project'.moduleSubmissions = project.moduleSubmissions ++
        [{ title := jsTrim title, description := jsTrim (description.getD ""),
           completionPercentage := some (pct : ℚ), githubLink := githubLink,
           submittedBy := uid, submittedAt := now }] ∧
      project'.completionPercentage = project.completionPercentage ∧
      (moduleSubmitRoute st projectId uid (some title) description (some pct)
          githubLink now).1.chats
        = st.chats.map (fun c => if c.id == chat.id then chat' else c) ∧
      chat'.messages = chat.messages ++ [msg] ∧
      msg.attachments.map (fun a =>
          a.moduleData.map ModuleData.completionPercentage) = [some pct] ∧
      (moduleSubmitRoute st projectId uid (some title) description (some pct)
          githubLink now).2
        = ModuleSubmitResult.created chat'.messages.getLast?
            ((project'.progressData now).completionPercentage) := by
  have ht : (jsTrim title == "") = false := by
    simp [htitle]
  have hcond : (pct < 0 || pct > 100) = false := by
    simp only [Bool.or_eq_false_iff, decide_eq_false_iff_not, not_lt]
    exact ⟨hlow, hhigh⟩
  simp only [moduleSubmitRoute, Option.getD_some, ht, hcond, hproj, hchat,
    Bool.false_eq_true, if_false]
  refine ⟨_, _, _, rfl, rfl, rfl, rfl, rfl, ?_, rfl⟩
  simp

/-- C9 witness: `moduleSubmit_spec` on the sample submission of module
"m2" at 100% to project 5. -/
theorem moduleSubmit_spec_witness :
    ¬jsTrim "m2" = "" ∧
    (0 : Int) ≤ 100 ∧
    sampleModuleState.projects.find? (fun p =>
        p.id == 5 && (p.owner == 1 || p.collaborators.contains 1))
      = some sampleModuleProject ∧
    sampleModuleState.chats.find? (fun c =>
        c.type == ChatType.project && c.project == some 5)
      = some sampleProjectChat ∧
    (∃ (project' : Project) (chat' : Chat) (msg : ChatMessage),
      (moduleSubmitRoute sampleModuleState 5 1 (some "m2") none (some 100)
          none 2).1.projects
        = sampleModuleState.projects.map (fun p =>
            if p.id == 5 then project' else p) ∧
      project'.moduleSubmissions = sampleModuleProject.moduleSubmissions ++
        [{ title := jsTrim "m2", description := jsTrim ((none : Option String).getD ""),
           completionPercentage := some ((100 : Int) : ℚ), githubLink := none,
           submittedBy := 1, submittedAt := 2 }] ∧
      project'.completionPercentage = sampleModuleProject.completionPercentage ∧
      (moduleSubmitRoute sampleModuleState 5 1 (some "m2") none (some 100)
          none 2).1.chats
        = sampleModuleState.chats.map (fun c =>
            if c.id == sampleProjectChat.id then chat' else c) ∧
      chat'.messages = sampleProjectChat.messages ++ [msg] ∧
      msg.attachments.map (fun a =>
          a.moduleData.map ModuleData.completionPercentage) = [some 100] ∧
      (moduleSubmitRoute sampleModuleState 5 1 (some "m2") none (some 100)
          none 2).2
        = ModuleSubmitResult.created chat'.messages.getLast?
            ((project'.progressData 2).completionPercentage)) :=
  ⟨by decide, by decide, by decide, by decide,
   moduleSubmit_spec sampleModuleState 5 1 "m2" none 100 none 2
     sampleModuleProject sampleProjectChat (by decide) (by decide) (by decide)
     (by decide) (by decide)⟩

/-- One gateway step preserves "every room membership belongs to an
authenticated connection". -/
theorem gatewayStep_preserves_auth (verify : String → Option UserId)
    (st : GatewayState) (e : GatewayEvent)
    (hinv : ∀ p ∈ st.rooms, p.1 ∈ st.authenticated) :
    ∀ p ∈ (gatewayStep verify st e).1.rooms,
      p.1 ∈ (gatewayStep verify st e).1.authenticated := by
  cases e with
  | connect cid h =>
    cases hauth : authenticateSocket verify h with
    | ok u =>
      intro p hp
      simp only [gatewayStep, hauth] at hp ⊢
      exact List.mem_cons_of_mem _ (hinv p hp)
    | error msg =>
      intro p hp
      simp only [gatewayStep, hauth] at hp ⊢
      exact hinv p hp
  | joinRoom cid room =>
    by_cases hc : st.authenticated.contains cid
    · intro p hp
      simp only [gatewayStep, hc, if_true] at hp ⊢
      rcases List.mem_cons.mp hp with rfl | hmem
      · exact List.elem_iff.mp hc
      · exact hinv p hmem
    · intro p hp
      simp only [gatewayStep, hc, Bool.false_eq_true, if_false] at hp ⊢
      exact hinv p hp
  | leaveRoom cid room =>
    by_cases hc : st.authenticated.contains cid
    · intro p hp
      simp only [gatewayStep, hc, if_true] at hp ⊢
      exact hinv p (List.mem_of_mem_filter hp)
    · intro p hp
      simp only [gatewayStep, hc, Bool.false_eq_true, if_false] at hp ⊢
      exact hinv p hp
  | disconnect cid =>
    intro p hp
    simp only [gatewayStep] at hp ⊢
    rw [List.mem_filter] at hp ⊢
    exact ⟨hinv p hp.1, by simpa using hp.2⟩

/-- Along any event trace, every room membership belongs to an
authenticated connection. -/
theorem gatewayRun_preserves_auth (verify : String → Option UserId)
    (events : List GatewayEvent) :
    ∀ (st : GatewayState), (∀ p ∈ st.rooms, p.1 ∈ st.authenticated) →
      ∀ p ∈ (gatewayRun verify st events).rooms,
        p.1 ∈ (gatewayRun verify st events).authenticated := by
  induction events with
  | nil => intro st hinv; exact hinv
  | cons e es ih =>
    intro st hinv
    exact ih _ (gatewayStep_preserves_auth verify st e hinv)

/-- C10: a connection with a missing token, or one whose token the verifier
rejects, is refused — the gateway state is unchanged and an authentication
error is emitted; a `join room` or `leave room` for a connection id that
was never admitted has no effect; and along every event trace from process
start, every room membership belongs to an authenticated connection, so no
room operation ever takes effect on an unauthenticated connection. -/
theorem gateway_auth_spec (verify : String → Option UserId) :
    (∀ (st : GatewayState) (cid : Nat) (h : Handshake),
      (h.token = none ∨ ∀ t, h.token = some t → verify t = none) →
      (gatewayStep verify st (GatewayEvent.connect cid h)).1 = st ∧
      ∃ msg, (gatewayStep verify st (GatewayEvent.connect cid h)).2 = some msg) ∧
    (∀ (st : GatewayState) (cid room : Nat), cid ∉ st.authenticated →
      gatewayStep verify st (GatewayEvent.joinRoom cid room) = (st, none) ∧
      gatewayStep verify st (GatewayEvent.leaveRoom cid room) = (st, none)) ∧
    (∀ events : List GatewayEvent,
      ∀ p ∈ (gatewayRun verify GatewayState.initial events).rooms,
        p.1 ∈ (gatewayRun verify GatewayState.initial events).authenticated) := by
  refine ⟨?_, ?_, ?_⟩
  · intro st cid h hbad
    rcases htok : h.token with _ | t
    · simp [gatewayStep, authenticateSocket, htok]
    · rcases hbad with hnone | hinvalid
      · rw [htok] at hnone; exact absurd hnone (by simp)
      · simp [gatewayStep, authenticateSocket, htok, hinvalid t htok]
  · intro st cid room hniff
    have hc : st.authenticated.contains cid = false := by
      rw [← Bool.not_eq_true]
      intro hc
      exact hniff (List.elem_iff.mp hc)
    constructor <;> simp [gatewayStep, hc, hniff]
  · intro events
    exact gatewayRun_preserves_auth verify events GatewayState.initial
      (by intro p hp; simp [GatewayState.initial] at hp)

/-- C10 witness: `gateway_auth_spec` for a verifier accepting exactly the
token "good", exercised at a token-less handshake, a bad-token handshake
(via the theorem's hypothesis), and an un-admitted connection's join. -/
theorem gateway_auth_spec_witness :
    ((Handshake.mk none).token = none ∨
      ∀ t, (Handshake.mk none).token = some t →
        (fun t => if t == "good" then some 42 else none : String → Option UserId) t = none) ∧
    (7 : Nat) ∉ GatewayState.initial.authenticated ∧
    ((gatewayStep (fun t => if t == "good" then some 42 else none)
        GatewayState.initial (GatewayEvent.connect 7 (Handshake.mk none))).1
      = GatewayState.initial ∧
    ∃ msg, (gatewayStep (fun t => if t == "good" then some 42 else none)
        GatewayState.initial (GatewayEvent.connect 7 (Handshake.mk none))).2
      = some msg) ∧
    (gatewayStep (fun t => if t == "good" then some 42 else none)
        GatewayState.initial (GatewayEvent.joinRoom 7 3)
      = (GatewayState.initial, none) ∧
    gatewayStep (fun t => if t == "good" then some 42 else none)
        GatewayState.initial (GatewayEvent.leaveRoom 7 3)
      = (GatewayState.initial, none)) :=
  ⟨Or.inl rfl, by decide,
   (gateway_auth_spec (fun t => if t == "good" then some 42 else none)).1
     GatewayState.initial 7 (Handshake.mk none) (Or.inl rfl),
   (gateway_auth_spec (fun t => if t == "good" then some 42 else none)).2.1
     GatewayState.initial 7 3 (by decide)⟩

end DevCollab
